import Mathlib

/-!
Verification development for the nkiri-crawler bulk orchestrator
(src/bulk.py).  The Python code is shallowly embedded: the two record
dictionaries (`processed_urls`, `failed_downloads`) become association
lists keyed by strings, external effects (the download backend,
rclone subprocesses, `datetime.now()`, the process hash seed) become an
explicit `Backend` oracle, and each call the orchestrator makes to the
outside world is logged in an event trace so that claims about "no
backend call happens" are statements about the trace.
-/

set_option autoImplicit false

namespace NkiriBulk

/-! ## Association-list maps

Python `dict`s with string keys, embedded as association lists in
insertion order: an update of an existing key rewrites it in place, a
new key is appended at the end, exactly like CPython dict semantics.
-/

section Maps

variable {β : Type}

/-- First value stored under `key`, if any (`d[key]` / `key in d`). -/
def lookupKey : List (String × β) → String → Option β
  | [], _ => none
  | (k, v) :: rest, key => if k = key then some v else lookupKey rest key

/-- Store `val` under `key` (`d[key] = val`): rewrite in place, else append. -/
def insertKey : List (String × β) → String → β → List (String × β)
  | [], key, val => [(key, val)]
  | (k, v) :: rest, key, val =>
      if k = key then (key, val) :: rest else (k, v) :: insertKey rest key val

/-- Remove the first entry under `key` (`del d[key]`). -/
def eraseKey : List (String × β) → String → List (String × β)
  | [], _ => []
  | (k, v) :: rest, key => if k = key then rest else (k, v) :: eraseKey rest key

/-- Number of entries stored under `key`. -/
def countKey (m : List (String × β)) (key : String) : Nat :=
  (m.filter (fun e => e.1 = key)).length

/-- The keys, in insertion order (`list(d.keys())`). -/
def keysOf (m : List (String × β)) : List String := m.map Prod.fst

end Maps

/-! ## CPython string hashing

`bulk.py` keys both record files by `str(hash(url))` (lines 453, 493,
630).  CPython's `hash` on `str` is the SipHash family keyed by a
per-process random secret `(k0, k1)` (randomized unless
`PYTHONHASHSEED` is fixed); since Python 3.11 the default is
SipHash-1-3 over the string's byte buffer (`Python/pyhash.c`).  The
whole algorithm is embedded below so that the instability of the
record key across two processes with different secrets is an evaluated
fact, not an assumption.
-/

/-- Little-endian value of up to eight bytes. -/
def le64 (bs : List Nat) : Nat := bs.foldr (fun b acc => b + 256 * acc) 0

/-- Rotate a 64-bit value left by `n`. -/
def rotl64 (x n : Nat) : Nat := ((x <<< n) ||| (x >>> (64 - n))) % 2 ^ 64

/-- Addition modulo 2^64. -/
def add64 (a b : Nat) : Nat := (a + b) % 2 ^ 64

/-- The four 64-bit words of the SipHash internal state. -/
structure SipState where
  v0 : Nat
  v1 : Nat
  v2 : Nat
  v3 : Nat

/-- One SipHash round (`HALF_ROUND`/`SINGLE_ROUND` of `Python/pyhash.c`). -/
def sipRound (s : SipState) : SipState :=
  let a0 := add64 s.v0 s.v1
  let a1 := rotl64 s.v1 13
  let b1 := a1 ^^^ a0
  let b0 := rotl64 a0 32
  let a2 := add64 s.v2 s.v3
  let a3 := rotl64 s.v3 16
  let b3 := a3 ^^^ a2
  let c0 := add64 b0 b3
  let c3 := rotl64 b3 21
  let d3 := c3 ^^^ c0
  let c2 := add64 a2 b1
  let c1 := rotl64 b1 17
  let d1 := c1 ^^^ c2
  let d2 := rotl64 c2 32
  ⟨c0, d1, d2, d3⟩

/-- Absorb the full 8-byte blocks of the input, one round per block. -/
def sipBlocks : SipState → List Nat → SipState × List Nat
  | s, b0 :: b1 :: b2 :: b3 :: b4 :: b5 :: b6 :: b7 :: rest =>
      let m := le64 [b0, b1, b2, b3, b4, b5, b6, b7]
      let s1 := sipRound { s with v3 := s.v3 ^^^ m }
      sipBlocks { s1 with v0 := s1.v0 ^^^ m } rest
  | s, bs => (s, bs)

/-- SipHash-1-3 of a byte string under the key `(k0, k1)`, as in
CPython's `pysiphash13`. -/
def pySipHash13 (k0 k1 : Nat) (src : List Nat) : Nat :=
  let lenByte := ((src.length % 256) <<< 56) % 2 ^ 64
  let s0 : SipState :=
    ⟨k0 ^^^ 0x736f6d6570736575, k1 ^^^ 0x646f72616e646f6d,
     k0 ^^^ 0x6c7967656e657261, k1 ^^^ 0x7465646279746573⟩
  let br := sipBlocks s0 src
  let b := lenByte ||| le64 br.2
  let s1 := sipRound { br.1 with v3 := br.1.v3 ^^^ b }
  let s2 := { s1 with v0 := s1.v0 ^^^ b }
  let s3 := { s2 with v2 := s2.v2 ^^^ 0xff }
  let s4 := sipRound (sipRound (sipRound s3))
  (s4.v0 ^^^ s4.v1) ^^^ (s4.v2 ^^^ s4.v3)

/-- The byte buffer of an ASCII string: one byte per character, which
is both its UTF-8 encoding and CPython's compact representation that
`hash` runs over. -/
def strBytes (s : String) : List Nat := s.data.map Char.toNat

/-- Fold a 64-bit hash value into CPython's signed `Py_hash_t`:
interpret modulo 2^64 as a signed 64-bit integer, mapping the
reserved value `-1` to `-2`. -/
def toPyHash (t : Nat) : Int :=
  let signed : Int := if t < 2 ^ 63 then (t : Int) else (t : Int) - 2 ^ 64
  if signed = -1 then -2 else signed

/-- CPython `hash(s)` for an ASCII `str` under process secret
`(k0, k1)`: `0` for the empty string, otherwise the signed SipHash-1-3
of its byte buffer. -/
def pyHashStr (k0 k1 : Nat) (s : String) : Int :=
  if s = "" then 0 else toPyHash (pySipHash13 k0 k1 (strBytes s))

/-- The record key `str(hash(url))` used for both the completion map
and the failure map (src/bulk.py lines 453, 493, 630), parametrized by
the process's string-hash function. -/
def recordKey (pyHash : String → Int) (url : String) : String :=
  toString (pyHash url)

/-! ## Data model

The records stored in `processed_urls.json` and
`failed_downloads.json` (src/bulk.py lines 456-466 and 536-541). -/

/-- One entry of `failed_downloads.json`.  The `url` field is always
written by `_record_download_failure`; the retry sweep reads it with
`.get("url", "")`, so a missing field behaves as the empty string. -/
structure FailInfo where
  url : String
  firstFailure : String
  lastFailure : String
  failures : Nat
  lastError : String
deriving DecidableEq

/-- One entry of `processed_urls.json` (the completion record). -/
structure ProcInfo where
  url : String
  downloadedAt : String
  path : String
  folder : String
deriving DecidableEq

/-- The in-memory state of `BulkDownloadManager`: the completion map
`processed_urls` and the failure ledger `failed_downloads`. -/
structure ManagerState where
  processed : List (String × ProcInfo)
  failed : List (String × FailInfo)
deriving DecidableEq

/-- The configuration fields consulted by the claims
(`max_download_failures`, `auto_delete`,
`verification.verify_uploads`). -/
structure Config where
  maxFailures : Nat
  autoDelete : Bool
  verifyUploads : Bool
deriving DecidableEq

/-- The defaults of `create_default_config` (src/bulk.py lines
691-709): failure ceiling 3, auto-delete on, verification on. -/
def defaultConfig : Config := ⟨3, true, true⟩

/-- The process environment: everything `download_and_upload` consults
outside the manager state.  `pyHash` is the process's string hash
(seed-dependent, see `pyHashStr`); `now` stands for
`datetime.now().isoformat()`; `download` is `funcs.download_episode`
returning `(success, message, downloaded_path)`; `pathExists` is
`os.path.exists`; `upload`/`verify` are the net outcomes of the rclone
subprocesses run by `RcloneUploader.upload_file` and the enabled
branch of `RcloneUploader.verify_upload`; `uploadError` is
`self.rclone.last_error or "Upload failed"`; `deleteOk` is the result
of `_delete_content`; `folderName` is `_extract_folder_name` (a pure
function of the url whose value no claim constrains). -/
structure Backend where
  pyHash : String → Int
  now : String
  download : String → Bool × String × Option String
  pathExists : String → Bool
  upload : String → String → Bool
  verify : String → String → Bool
  uploadError : String
  deleteOk : String → Bool
  folderName : String → String

/-- One observable call the orchestrator makes to the outside world.
`attempt` marks an item being dispatched to `download_and_upload` by a
sweep; `saveProcessed`/`saveFailed` are the persistence calls
`_save_processed_urls`/`_save_failed_downloads`; `deleteCall` records
`_delete_content` together with its (ignored) outcome. -/
inductive Event where
  | downloadCall (url : String)
  | uploadCall (path folder : String)
  | verifyCall (path folder : String)
  | deleteCall (path : String) (ok : Bool)
  | saveProcessed
  | saveFailed
  | attempt (url : String)
deriving DecidableEq

/-! ## Persisted record files

`_load_json_file` / `_save_json_file` (src/bulk.py lines 360-407),
modelled over an abstract filesystem: a map from path to file content,
where content is either the JSON serialization of a record map or
syntactically invalid text (on which `json.load` raises
`JSONDecodeError`). -/

/-- Content of a file on disk: either the JSON serialization of a
record map `d`, or text that is not valid JSON. -/
inductive FileContent (α : Type) where
  | json (data : α)
  | garbage (raw : String)
deriving DecidableEq

/-- A filesystem: association of paths to file contents (absent path =
missing file). -/
def FS (α : Type) := List (String × FileContent α)

/-- `BulkDownloadManager._load_json_file` (src/bulk.py lines 360-380):
a missing file yields the empty map; a valid file yields its contents;
a corrupt file yields the empty map after `shutil.copy2`-ing the
corrupt file to `f"{filename}.{int(time.time())}.bak"`.  Every case
returns normally — the `except` arms swallow the exception.  Returns
the loaded map together with the filesystem afterwards. -/
def loadJsonFile {β : Type} (fs : FS (List (String × β))) (timestamp : Nat)
    (filename : String) : List (String × β) × FS (List (String × β)) :=
  match lookupKey fs filename with
  | none => ([], fs)
  | some (FileContent.json d) => (d, fs)
  | some (FileContent.garbage raw) =>
      let backupName := filename ++ "." ++ toString timestamp ++ ".bak"
      ([], insertKey fs backupName (FileContent.garbage raw))

/-- The successive filesystem states produced by
`BulkDownloadManager._save_json_file` (src/bulk.py lines 390-407):
the initial state; the sibling temp file `f"{filename}.tmp"` created
and partially written (`open` + `json.dump` in progress); the temp
file holding the complete serialization; and the state after
`os.replace`/`os.rename` atomically moved the temp file over the
target.  A crash can stop the process after any of these states. -/
def saveJsonFileStates {α : Type} (fs : FS α) (filename : String) (data : α) :
    List (FS α) :=
  let tempName := filename ++ ".tmp"
  let fsOpened := insertKey fs tempName (FileContent.garbage "")
  let fsWritten := insertKey fs tempName (FileContent.json data)
  let fsRenamed := insertKey (eraseKey fsWritten tempName) filename (FileContent.json data)
  [fs, fsOpened, fsWritten, fsRenamed]

/-- The final filesystem and return value of `_save_json_file`. -/
def saveJsonFile {α : Type} (fs : FS α) (filename : String) (data : α) :
    Bool × FS α :=
  let tempName := filename ++ ".tmp"
  let fsWritten := insertKey fs tempName (FileContent.json data)
  (true, insertKey (eraseKey fsWritten tempName) filename (FileContent.json data))

/-! ## The orchestrator

`BulkDownloadManager.download_and_upload`, `_record_download_failure`,
`_retry_failed_downloads` and `process_urls` (src/bulk.py lines
451-641).  Each function returns its new state together with the list
of external calls it made, in order. -/

/-- `_record_download_failure` (src/bulk.py lines 451-468): create the
failure record with count 1, or bump the count and refresh
`last_failure` / `last_error`; then persist (`_save_failed_downloads`).
Python stores `error_message or "Unknown error"`, so `None` and the
empty string both fall back. -/
def recordDownloadFailure (be : Backend) (st : ManagerState) (url : String)
    (errorMessage : Option String) : ManagerState × List Event :=
  let urlHash := recordKey be.pyHash url
  let err := match errorMessage with
    | none => "Unknown error"
    | some m => if m = "" then "Unknown error" else m
  let failed' := match lookupKey st.failed urlHash with
    | none =>
        insertKey st.failed urlHash
          { url := url, firstFailure := be.now, lastFailure := be.now,
            failures := 1, lastError := err }
    | some info =>
        insertKey st.failed urlHash
          { info with
            failures := info.failures + 1
            lastFailure := be.now
            lastError := err }
  ({ st with failed := failed' }, [Event.saveFailed])

/-- The exhaustion test of src/bulk.py lines 501-502: the url's key is
in `failed_downloads` and its stored count has reached
`max_download_failures`. -/
def isExhausted (cfg : Config) (st : ManagerState) (urlHash : String) : Bool :=
  match lookupKey st.failed urlHash with
  | some info => decide (cfg.maxFailures ≤ info.failures)
  | none => false

/-- `RcloneUploader.verify_upload` (src/bulk.py lines 255-333): when
verification is disabled in the config it returns `True` without
running any check; otherwise the outcome of the `rclone check`
subprocess decides, and the call is recorded in the trace. -/
def verifyUpload (cfg : Config) (be : Backend) (localPath folder : String) :
    Bool × List Event :=
  if cfg.verifyUploads then
    (be.verify localPath folder, [Event.verifyCall localPath folder])
  else
    (true, [])

/-- `BulkDownloadManager.download_and_upload` (src/bulk.py lines
491-577).  Returns `(return value, new state, external calls made)`. -/
def downloadAndUpload (cfg : Config) (be : Backend) (st : ManagerState)
    (url : String) : Bool × ManagerState × List Event :=
  let urlHash := recordKey be.pyHash url
  if (lookupKey st.processed urlHash).isSome then
    (true, st, [])
  else if isExhausted cfg st urlHash then
    (false, st, [])
  else
    let folder := be.folderName url
    let dres := be.download url
    let dpath := dres.2.2.getD ""
    if dres.1 = false ∨ dpath = "" then
      let r := recordDownloadFailure be st url (some dres.2.1)
      (false, r.1, Event.downloadCall url :: r.2)
    else if be.pathExists dpath then
      if be.upload dpath folder then
        let v := verifyUpload cfg be dpath folder
        if v.1 then
          let newRec : ProcInfo := ⟨url, be.now, dpath, folder⟩
          let st1 : ManagerState :=
            { st with processed := insertKey st.processed urlHash newRec }
          let cleared :=
            if (lookupKey st1.failed urlHash).isSome then
              (({ st1 with failed := eraseKey st1.failed urlHash } : ManagerState),
               [Event.saveFailed])
            else
              (st1, ([] : List Event))
          let delEvs :=
            if cfg.autoDelete then [Event.deleteCall dpath (be.deleteOk dpath)]
            else ([] : List Event)
          (true, cleared.1,
           Event.downloadCall url :: Event.uploadCall dpath folder ::
             (v.2 ++ Event.saveProcessed :: (cleared.2 ++ delEvs)))
        else
          let r := recordDownloadFailure be st url (some "Upload verification failed")
          (false, r.1,
           Event.downloadCall url :: Event.uploadCall dpath folder :: (v.2 ++ r.2))
      else
        let r := recordDownloadFailure be st url (some be.uploadError)
        (false, r.1,
         Event.downloadCall url :: Event.uploadCall dpath folder :: r.2)
    else
      let r := recordDownloadFailure be st url
        (some ("Downloaded path not found: " ++ dpath))
      (false, r.1, Event.downloadCall url :: r.2)

/-- One iteration of the loop in `_retry_failed_downloads`
(src/bulk.py lines 589-614), acting on one key of the snapshot of the
ledger's keys.  The `none` arm is unreachable when the ledger's keys
are distinct (a Python dict lookup of a key of the snapshot). -/
def retryStep (cfg : Config) (be : Backend) (acc : ManagerState × List Event)
    (urlHash : String) : ManagerState × List Event :=
  match lookupKey acc.1.failed urlHash with
  | none => acc
  | some info =>
      if cfg.maxFailures ≤ info.failures then acc
      else if info.url = "" then
        ({ acc.1 with failed := eraseKey acc.1.failed urlHash },
         acc.2 ++ [Event.saveFailed])
      else
        let r := downloadAndUpload cfg be acc.1 info.url
        (r.2.1, acc.2 ++ (Event.attempt info.url :: r.2.2))

/-- `_retry_failed_downloads` (src/bulk.py lines 579-614): fold the
retry step over a snapshot of the ledger's keys. -/
def retryFailedDownloads (cfg : Config) (be : Backend) (st : ManagerState) :
    ManagerState × List Event :=
  if st.failed.isEmpty then (st, [])
  else (keysOf st.failed).foldl (retryStep cfg be) (st, [])

/-- One iteration of the backlog loop of `process_urls` (src/bulk.py
lines 628-641): skip a url whose key is already in the completion map,
else dispatch it to `download_and_upload`. -/
def processBacklogStep (cfg : Config) (be : Backend)
    (acc : ManagerState × List Event) (url : String) : ManagerState × List Event :=
  let urlHash := recordKey be.pyHash url
  if (lookupKey acc.1.processed urlHash).isSome then acc
  else
    let r := downloadAndUpload cfg be acc.1 url
    (r.2.1, acc.2 ++ (Event.attempt url :: r.2.2))

/-- The fresh-backlog sweep of `process_urls`. -/
def processBacklog (cfg : Config) (be : Backend) (st : ManagerState)
    (urls : List String) : ManagerState × List Event :=
  urls.foldl (processBacklogStep cfg be) (st, [])

/-- `_load_urls_from_file` line filtering (src/bulk.py lines 439-443):
strip each line, drop blank lines and `#` comments. -/
def loadUrlsFromFile (lines : List String) : List String :=
  (lines.map String.trim).filter (fun u => u ≠ "" && !u.startsWith "#")

/-- `process_urls` (src/bulk.py lines 616-641): retry the failure
ledger first, then sweep the fresh backlog (`urls` stands for the list
`_load_urls_from_file` returned). -/
def processUrls (cfg : Config) (be : Backend) (st : ManagerState)
    (urls : List String) : ManagerState × List Event :=
  let r1 := retryFailedDownloads cfg be st
  let r2 := processBacklog cfg be r1.1 urls
  (r2.1, r1.2 ++ r2.2)

/-- Self-consistency of the failure ledger: every entry with a
non-empty `url` field is stored under that url's current record key.
`_record_download_failure` establishes this for every record it
creates; it can only be broken by a ledger written by a process with a
different hash seed (the defect of claim C1) or by hand-edited
JSON. -/
def ledgerConsistent (pyHash : String → Int) (failed : List (String × FailInfo)) :
    Prop :=
  ∀ e ∈ failed, e.2.url ≠ "" → e.1 = recordKey pyHash e.2.url

/-! ## Concrete fixtures

Small concrete backends and states used to evaluate the embedded
functions on closed inputs.  `fun s => (s.length : Int)` stands in for
the ambient process hash: any function works for these runs, and a
short one keeps the record keys readable. -/

/-- A backend whose download step always fails. -/
def beFail : Backend where
  pyHash := fun s => (s.length : Int)
  now := "2026-01-01T00:00:00"
  download := fun _ => (false, "network error", none)
  pathExists := fun _ => false
  upload := fun _ _ => false
  verify := fun _ _ => false
  uploadError := "Upload failed"
  deleteOk := fun _ => false
  folderName := fun _ => "Show"

/-- A backend where download, upload, verification and deletion all
succeed. -/
def beOk : Backend where
  pyHash := fun s => (s.length : Int)
  now := "2026-01-01T00:00:00"
  download := fun u => (true, "Downloaded", some ("./downloads/Show/" ++ u))
  pathExists := fun _ => true
  upload := fun _ _ => true
  verify := fun _ _ => true
  uploadError := "Upload failed"
  deleteOk := fun _ => true
  folderName := fun _ => "Show"

/-- A backend where the transfer succeeds but deleting the local copy
fails. -/
def beDelFail : Backend where
  pyHash := fun s => (s.length : Int)
  now := "2026-01-01T00:00:00"
  download := fun u => (true, "Downloaded", some ("./downloads/Show/" ++ u))
  pathExists := fun _ => true
  upload := fun _ _ => true
  verify := fun _ _ => true
  uploadError := "Upload failed"
  deleteOk := fun _ => false
  folderName := fun _ => "Show"

/-- A failure record that has reached the default ceiling. -/
def infoAtCeiling : FailInfo :=
  { url := "ab", firstFailure := "t0", lastFailure := "t1", failures := 3,
    lastError := "network error" }

/-- State with one exhausted failure record for url `"ab"` (whose key
under the fixture hash is `"2"`). -/
def stExhausted : ManagerState := { processed := [], failed := [("2", infoAtCeiling)] }

/-- A completion record for url `"ab"`. -/
def procDoneAb : ProcInfo :=
  { url := "ab", downloadedAt := "t0", path := "./downloads/Show/ab", folder := "Show" }

/-- State in which url `"ab"` is already completed. -/
def stDoneAb : ManagerState := { processed := [("2", procDoneAb)], failed := [] }

/-- A failure record with two prior failures for url `"ab"`. -/
def infoTwoFailures : FailInfo :=
  { url := "ab", firstFailure := "t0", lastFailure := "t1", failures := 2,
    lastError := "network error" }

/-- State with two recorded failures for url `"ab"` and nothing
completed. -/
def stTwoFailures : ManagerState := { processed := [], failed := [("2", infoTwoFailures)] }

/-- The empty manager state. -/
def stEmpty : ManagerState := { processed := [], failed := [] }

/-- A completion record for url `"u-done"` (key `"6"` under the
fixture hash). -/
def procDoneLong : ProcInfo :=
  { url := "u-done", downloadedAt := "t0", path := "./downloads/Show/u-done",
    folder := "Show" }

/-- A retryable failure record for url `"ab"`. -/
def infoRetry : FailInfo :=
  { url := "ab", firstFailure := "t0", lastFailure := "t1", failures := 1,
    lastError := "network error" }

/-- State with one completed url and one retryable failure. -/
def stMixed : ManagerState :=
  { processed := [("6", procDoneLong)], failed := [("2", infoRetry)] }

/-- An exhausted failure record whose identity field is empty. -/
def infoEmptyExhausted : FailInfo :=
  { url := "", firstFailure := "t0", lastFailure := "t1", failures := 3,
    lastError := "e" }

/-- State whose ledger holds one exhausted, empty-identity record
under the unmatchable key `"7"`. -/
def stEmptyExhausted : ManagerState :=
  { processed := [], failed := [("7", infoEmptyExhausted)] }

/-- A non-exhausted failure record whose identity field is empty. -/
def infoEmptyFresh : FailInfo :=
  { url := "", firstFailure := "t0", lastFailure := "t1", failures := 1,
    lastError := "e" }

/-- State whose ledger holds one non-exhausted, empty-identity record. -/
def stEmptyFresh : ManagerState :=
  { processed := [], failed := [("9", infoEmptyFresh)] }

/-- A filesystem whose failure-ledger file holds invalid JSON. -/
def fsCorrupt : FS (List (String × FailInfo)) :=
  [("failed_downloads.json", FileContent.garbage "this is not json")]

/-! ## Lemmas about the association-list maps -/

section MapLemmas

variable {β : Type}

theorem lookupKey_eq_none_of_not_mem_keys (m : List (String × β)) (k : String)
    (h : k ∉ keysOf m) : lookupKey m k = none := by
  induction m with
  | nil => rfl
  | cons e rest ih =>
      obtain ⟨ek, ev⟩ := e
      simp only [keysOf, List.map_cons, List.mem_cons] at h
      push_neg at h
      simp [lookupKey, Ne.symm h.1, ih (by simpa [keysOf] using h.2)]

theorem lookupKey_insertKey_self (m : List (String × β)) (k : String) (v : β) :
    lookupKey (insertKey m k v) k = some v := by
  induction m with
  | nil => simp [insertKey, lookupKey]
  | cons e rest ih =>
      obtain ⟨ek, ev⟩ := e
      by_cases he : ek = k
      · simp [insertKey, lookupKey, he]
      · simp [insertKey, lookupKey, he, ih]

theorem lookupKey_insertKey_ne (m : List (String × β)) (k k' : String) (v : β)
    (h : k' ≠ k) : lookupKey (insertKey m k v) k' = lookupKey m k' := by
  have h' : k ≠ k' := Ne.symm h
  induction m with
  | nil => simp [insertKey, lookupKey, h']
  | cons e rest ih =>
      obtain ⟨ek, ev⟩ := e
      by_cases he : ek = k
      · subst he
        simp [insertKey, lookupKey, h']
      · by_cases he' : ek = k'
        · subst he'
          simp [insertKey, lookupKey, he]
        · simp [insertKey, lookupKey, he, he', ih]

theorem lookupKey_eraseKey_ne (m : List (String × β)) (k k' : String)
    (h : k' ≠ k) : lookupKey (eraseKey m k) k' = lookupKey m k' := by
  have h' : k ≠ k' := Ne.symm h
  induction m with
  | nil => simp [eraseKey, lookupKey]
  | cons e rest ih =>
      obtain ⟨ek, ev⟩ := e
      by_cases he : ek = k
      · subst he
        simp [eraseKey, lookupKey, h']
      · by_cases he' : ek = k'
        · subst he'
          simp [eraseKey, lookupKey, he]
        · simp [eraseKey, lookupKey, he, he', ih]

theorem lookupKey_eraseKey_self (m : List (String × β)) (k : String)
    (hnd : (keysOf m).Nodup) : lookupKey (eraseKey m k) k = none := by
  induction m with
  | nil => simp [eraseKey, lookupKey]
  | cons e rest ih =>
      obtain ⟨ek, ev⟩ := e
      simp only [keysOf, List.map_cons, List.nodup_cons] at hnd
      by_cases he : ek = k
      · subst he
        simp only [eraseKey, if_pos rfl]
        exact lookupKey_eq_none_of_not_mem_keys rest ek (by simpa [keysOf] using hnd.1)
      · simp [eraseKey, lookupKey, he, ih hnd.2]

theorem mem_of_lookupKey (m : List (String × β)) (k : String) (v : β)
    (h : lookupKey m k = some v) : (k, v) ∈ m := by
  induction m with
  | nil => simp [lookupKey] at h
  | cons e rest ih =>
      obtain ⟨ek, ev⟩ := e
      by_cases he : ek = k
      · subst he
        have h' : some ev = some v := by simpa [lookupKey] using h
        obtain rfl : ev = v := Option.some.inj h'
        exact List.mem_cons_self _ _
      · simp only [lookupKey, if_neg he] at h
        exact List.mem_cons_of_mem _ (ih h)

theorem lookupKey_of_mem (m : List (String × β)) (k : String) (v : β)
    (hnd : (keysOf m).Nodup) (h : (k, v) ∈ m) : lookupKey m k = some v := by
  induction m with
  | nil => simp at h
  | cons e rest ih =>
      obtain ⟨ek, ev⟩ := e
      simp only [keysOf, List.map_cons, List.nodup_cons] at hnd
      rcases List.mem_cons.mp h with h1 | h2
      · have h1a : k = ek := congrArg Prod.fst h1
        have h1b : v = ev := congrArg Prod.snd h1
        subst h1a
        subst h1b
        simp [lookupKey]
      · have hne : ¬ (ek = k) := by
          intro hh
          subst hh
          exact hnd.1 (List.mem_map.mpr ⟨(ek, v), h2, rfl⟩)
        simp only [lookupKey, if_neg hne]
        exact ih hnd.2 h2

theorem mem_insertKey (m : List (String × β)) (k k' : String) (v v' : β)
    (h : (k', v') ∈ insertKey m k v) : (k', v') ∈ m ∨ (k' = k ∧ v' = v) := by
  induction m with
  | nil =>
      simp only [insertKey, List.mem_singleton, Prod.mk.injEq] at h
      exact Or.inr h
  | cons e rest ih =>
      obtain ⟨ek, ev⟩ := e
      by_cases he : ek = k
      · simp only [insertKey, if_pos he, List.mem_cons, Prod.mk.injEq] at h
        rcases h with h1 | h2
        · exact Or.inr h1
        · exact Or.inl (List.mem_cons_of_mem _ h2)
      · simp only [insertKey, if_neg he, List.mem_cons] at h
        rcases h with h1 | h2
        · exact Or.inl (List.mem_cons.mpr (Or.inl h1))
        · rcases ih h2 with h3 | h3
          · exact Or.inl (List.mem_cons_of_mem _ h3)
          · exact Or.inr h3

theorem mem_eraseKey (m : List (String × β)) (k k' : String) (v' : β)
    (h : (k', v') ∈ eraseKey m k) : (k', v') ∈ m := by
  induction m with
  | nil => simp [eraseKey] at h
  | cons e rest ih =>
      obtain ⟨ek, ev⟩ := e
      by_cases he : ek = k
      · simp only [eraseKey, if_pos he] at h
        exact List.mem_cons_of_mem _ h
      · simp only [eraseKey, if_neg he, List.mem_cons] at h
        rcases h with h1 | h2
        · exact List.mem_cons.mpr (Or.inl h1)
        · exact List.mem_cons_of_mem _ (ih h2)

theorem keysOf_insertKey_nodup (m : List (String × β)) (k : String) (v : β)
    (hnd : (keysOf m).Nodup) : (keysOf (insertKey m k v)).Nodup := by
  induction m with
  | nil => simp [insertKey, keysOf]
  | cons e rest ih =>
      obtain ⟨ek, ev⟩ := e
      simp only [keysOf, List.map_cons, List.nodup_cons] at hnd
      by_cases he : ek = k
      · subst he
        simpa [insertKey, keysOf, List.nodup_cons] using hnd
      · have hh := ih hnd.2
        simp only [insertKey, if_neg he, keysOf, List.map_cons, List.nodup_cons]
        refine ⟨?_, hh⟩
        intro hmem
        obtain ⟨x, hx, hx2⟩ := List.mem_map.mp hmem
        obtain ⟨xk, xv⟩ := x
        rcases mem_insertKey rest k xk v xv hx with h1 | h2
        · exact hnd.1 (List.mem_map.mpr ⟨(xk, xv), h1, hx2⟩)
        · exact he (by rw [← hx2]; exact congrArg id h2.1)

theorem keysOf_eraseKey_nodup (m : List (String × β)) (k : String)
    (hnd : (keysOf m).Nodup) : (keysOf (eraseKey m k)).Nodup := by
  induction m with
  | nil => simp [eraseKey, keysOf]
  | cons e rest ih =>
      obtain ⟨ek, ev⟩ := e
      simp only [keysOf, List.map_cons, List.nodup_cons] at hnd
      by_cases he : ek = k
      · simp only [eraseKey, if_pos he]
        exact hnd.2
      · simp only [eraseKey, if_neg he, keysOf, List.map_cons, List.nodup_cons]
        refine ⟨?_, ih hnd.2⟩
        intro hmem
        obtain ⟨x, hx, hx2⟩ := List.mem_map.mp hmem
        obtain ⟨xk, xv⟩ := x
        exact hnd.1 (List.mem_map.mpr ⟨(xk, xv), mem_eraseKey rest k xk xv hx, hx2⟩)

theorem countKey_eq_zero_of_lookupKey_none (m : List (String × β)) (k : String)
    (h : lookupKey m k = none) : countKey m k = 0 := by
  induction m with
  | nil => simp [countKey]
  | cons e rest ih =>
      obtain ⟨ek, ev⟩ := e
      by_cases he : ek = k
      · simp [lookupKey, he] at h
      · simp only [lookupKey, if_neg he] at h
        simpa [countKey, List.filter, he] using ih h

theorem countKey_insertKey_of_none (m : List (String × β)) (k : String) (v : β)
    (h : lookupKey m k = none) : countKey (insertKey m k v) k = 1 := by
  induction m with
  | nil => simp [insertKey, countKey, List.filter]
  | cons e rest ih =>
      obtain ⟨ek, ev⟩ := e
      by_cases he : ek = k
      · simp [lookupKey, he] at h
      · simp only [lookupKey, if_neg he] at h
        simpa [insertKey, countKey, List.filter, he] using ih h

end MapLemmas

/-! ## Branch lemmas for `downloadAndUpload` -/

theorem recordDownloadFailure_processed (be : Backend) (st : ManagerState)
    (url : String) (m : Option String) :
    (recordDownloadFailure be st url m).1.processed = st.processed := by
  unfold recordDownloadFailure
  cases lookupKey st.failed (recordKey be.pyHash url) <;> rfl

theorem recordDownloadFailure_events (be : Backend) (st : ManagerState)
    (url : String) (m : Option String) :
    (recordDownloadFailure be st url m).2 = [Event.saveFailed] := by
  unfold recordDownloadFailure
  cases lookupKey st.failed (recordKey be.pyHash url) <;> rfl

theorem downloadAndUpload_of_processed (cfg : Config) (be : Backend)
    (st : ManagerState) (url : String) (p : ProcInfo)
    (hp : lookupKey st.processed (recordKey be.pyHash url) = some p) :
    downloadAndUpload cfg be st url = (true, st, []) := by
  unfold downloadAndUpload
  simp [hp]

theorem downloadAndUpload_of_exhausted (cfg : Config) (be : Backend)
    (st : ManagerState) (url : String)
    (hnp : lookupKey st.processed (recordKey be.pyHash url) = none)
    (hx : isExhausted cfg st (recordKey be.pyHash url) = true) :
    downloadAndUpload cfg be st url = (false, st, []) := by
  unfold downloadAndUpload
  simp [hnp, hx]

theorem downloadAndUpload_of_download_failed (cfg : Config) (be : Backend)
    (st : ManagerState) (url : String)
    (hnp : lookupKey st.processed (recordKey be.pyHash url) = none)
    (hnx : isExhausted cfg st (recordKey be.pyHash url) = false)
    (hdl : (be.download url).1 = false ∨ (be.download url).2.2.getD "" = "") :
    downloadAndUpload cfg be st url =
      (false, (recordDownloadFailure be st url (some (be.download url).2.1)).1,
       Event.downloadCall url ::
         (recordDownloadFailure be st url (some (be.download url).2.1)).2) := by
  unfold downloadAndUpload
  simp [hnp, hnx, hdl]

theorem downloadAndUpload_of_path_missing (cfg : Config) (be : Backend)
    (st : ManagerState) (url : String)
    (hnp : lookupKey st.processed (recordKey be.pyHash url) = none)
    (hnx : isExhausted cfg st (recordKey be.pyHash url) = false)
    (hdl : ¬ ((be.download url).1 = false ∨ (be.download url).2.2.getD "" = ""))
    (hpe : be.pathExists ((be.download url).2.2.getD "") = false) :
    downloadAndUpload cfg be st url =
      (false,
       (recordDownloadFailure be st url
         (some ("Downloaded path not found: " ++ (be.download url).2.2.getD ""))).1,
       Event.downloadCall url ::
         (recordDownloadFailure be st url
           (some ("Downloaded path not found: " ++ (be.download url).2.2.getD ""))).2) := by
  unfold downloadAndUpload
  simp [hnp, hnx, hdl, hpe]

theorem downloadAndUpload_of_upload_failed (cfg : Config) (be : Backend)
    (st : ManagerState) (url : String)
    (hnp : lookupKey st.processed (recordKey be.pyHash url) = none)
    (hnx : isExhausted cfg st (recordKey be.pyHash url) = false)
    (hdl : ¬ ((be.download url).1 = false ∨ (be.download url).2.2.getD "" = ""))
    (hpe : be.pathExists ((be.download url).2.2.getD "") = true)
    (hup : be.upload ((be.download url).2.2.getD "") (be.folderName url) = false) :
    downloadAndUpload cfg be st url =
      (false, (recordDownloadFailure be st url (some be.uploadError)).1,
       Event.downloadCall url ::
         Event.uploadCall ((be.download url).2.2.getD "") (be.folderName url) ::
         (recordDownloadFailure be st url (some be.uploadError)).2) := by
  unfold downloadAndUpload
  simp [hnp, hnx, hdl, hpe, hup]

theorem downloadAndUpload_of_verify_failed (cfg : Config) (be : Backend)
    (st : ManagerState) (url : String)
    (hnp : lookupKey st.processed (recordKey be.pyHash url) = none)
    (hnx : isExhausted cfg st (recordKey be.pyHash url) = false)
    (hdl : ¬ ((be.download url).1 = false ∨ (be.download url).2.2.getD "" = ""))
    (hpe : be.pathExists ((be.download url).2.2.getD "") = true)
    (hup : be.upload ((be.download url).2.2.getD "") (be.folderName url) = true)
    (hv : (verifyUpload cfg be ((be.download url).2.2.getD "") (be.folderName url)).1
            = false) :
    downloadAndUpload cfg be st url =
      (false,
       (recordDownloadFailure be st url (some "Upload verification failed")).1,
       Event.downloadCall url ::
         Event.uploadCall ((be.download url).2.2.getD "") (be.folderName url) ::
         ((verifyUpload cfg be ((be.download url).2.2.getD "") (be.folderName url)).2 ++
          (recordDownloadFailure be st url (some "Upload verification failed")).2)) := by
  unfold downloadAndUpload
  simp [hnp, hnx, hdl, hpe, hup, hv]

theorem downloadAndUpload_of_success (cfg : Config) (be : Backend)
    (st : ManagerState) (url : String)
    (hnp : lookupKey st.processed (recordKey be.pyHash url) = none)
    (hnx : isExhausted cfg st (recordKey be.pyHash url) = false)
    (hdl : ¬ ((be.download url).1 = false ∨ (be.download url).2.2.getD "" = ""))
    (hpe : be.pathExists ((be.download url).2.2.getD "") = true)
    (hup : be.upload ((be.download url).2.2.getD "") (be.folderName url) = true)
    (hv : (verifyUpload cfg be ((be.download url).2.2.getD "") (be.folderName url)).1
            = true) :
    downloadAndUpload cfg be st url =
      (true,
       { processed := insertKey st.processed (recordKey be.pyHash url)
           ⟨url, be.now, (be.download url).2.2.getD "", be.folderName url⟩,
         failed := if (lookupKey st.failed (recordKey be.pyHash url)).isSome
                   then eraseKey st.failed (recordKey be.pyHash url)
                   else st.failed },
       Event.downloadCall url ::
         Event.uploadCall ((be.download url).2.2.getD "") (be.folderName url) ::
         ((verifyUpload cfg be ((be.download url).2.2.getD "") (be.folderName url)).2 ++
          Event.saveProcessed ::
            ((if (lookupKey st.failed (recordKey be.pyHash url)).isSome
              then [Event.saveFailed] else []) ++
             (if cfg.autoDelete
              then [Event.deleteCall ((be.download url).2.2.getD "")
                      (be.deleteOk ((be.download url).2.2.getD ""))]
              else [])))) := by
  unfold downloadAndUpload
  simp only [hnp, hnx]
  simp [hdl, hpe, hup, hv]
  by_cases hcl : (lookupKey st.failed (recordKey be.pyHash url)).isSome
  · simp [hcl]
  · simp [hcl]

/-! ## Structural facts about `downloadAndUpload` -/

theorem verifyUpload_events (cfg : Config) (be : Backend) (p f : String) :
    (verifyUpload cfg be p f).2 = [] ∨
    (verifyUpload cfg be p f).2 = [Event.verifyCall p f] := by
  unfold verifyUpload
  by_cases h : cfg.verifyUploads <;> simp [h]

theorem verifyUpload_of_disabled (cfg : Config) (be : Backend) (p f : String)
    (h : cfg.verifyUploads = false) : verifyUpload cfg be p f = (true, []) := by
  unfold verifyUpload
  simp [h]

theorem recordDownloadFailure_failed_other (be : Backend) (st : ManagerState)
    (url : String) (m : Option String) (k : String)
    (h : k ≠ recordKey be.pyHash url) :
    lookupKey (recordDownloadFailure be st url m).1.failed k =
      lookupKey st.failed k := by
  unfold recordDownloadFailure
  cases hl : lookupKey st.failed (recordKey be.pyHash url) <;>
    simp [hl, lookupKey_insertKey_ne _ _ _ _ h]

theorem recordDownloadFailure_nodup (be : Backend) (st : ManagerState)
    (url : String) (m : Option String) (h : (keysOf st.failed).Nodup) :
    (keysOf (recordDownloadFailure be st url m).1.failed).Nodup := by
  unfold recordDownloadFailure
  cases hl : lookupKey st.failed (recordKey be.pyHash url) <;>
    · simp only [hl]
      exact keysOf_insertKey_nodup _ _ _ h

theorem recordDownloadFailure_consistent (be : Backend) (st : ManagerState)
    (url : String) (m : Option String)
    (h : ledgerConsistent be.pyHash st.failed) :
    ledgerConsistent be.pyHash (recordDownloadFailure be st url m).1.failed := by
  intro e he hu
  obtain ⟨ek, ev⟩ := e
  cases hl : lookupKey st.failed (recordKey be.pyHash url) with
  | none =>
      simp only [recordDownloadFailure, hl] at he
      rcases mem_insertKey _ _ _ _ _ he with h1 | h2
      · exact h (ek, ev) h1 hu
      · rw [h2.1, h2.2]
  | some info =>
      simp only [recordDownloadFailure, hl] at he
      rcases mem_insertKey _ _ _ _ _ he with h1 | h2
      · exact h (ek, ev) h1 hu
      · have hmem := mem_of_lookupKey _ _ _ hl
        have hcons := h (recordKey be.pyHash url, info) hmem
        rw [h2.1, h2.2]
        rw [h2.2] at hu
        exact hcons hu

/-- Case analysis on the resulting state of `download_and_upload`:
either the state is untouched, or only the failure ledger changed via
`_record_download_failure`, or (success) the completion map gained the
item's record and the ledger lost at most its record — and in the
success case the item's key was not previously in the completion
map. -/
theorem downloadAndUpload_state_shape (cfg : Config) (be : Backend)
    (st : ManagerState) (url : String) :
    (downloadAndUpload cfg be st url).2.1 = st ∨
    (∃ m, (downloadAndUpload cfg be st url).2.1 =
        (recordDownloadFailure be st url m).1) ∨
    (lookupKey st.processed (recordKey be.pyHash url) = none ∧
     (downloadAndUpload cfg be st url).2.1.processed =
       insertKey st.processed (recordKey be.pyHash url)
         ⟨url, be.now, (be.download url).2.2.getD "", be.folderName url⟩ ∧
     ((downloadAndUpload cfg be st url).2.1.failed = st.failed ∨
      (downloadAndUpload cfg be st url).2.1.failed =
        eraseKey st.failed (recordKey be.pyHash url))) := by
  cases hp : lookupKey st.processed (recordKey be.pyHash url) with
  | some p =>
      left
      rw [downloadAndUpload_of_processed cfg be st url p hp]
  | none =>
      cases hx : isExhausted cfg st (recordKey be.pyHash url) with
      | true =>
          left
          rw [downloadAndUpload_of_exhausted cfg be st url hp hx]
      | false =>
          by_cases hdl : ((be.download url).1 = false ∨ (be.download url).2.2.getD "" = "")
          · right
            left
            exact ⟨_, by rw [downloadAndUpload_of_download_failed cfg be st url hp hx hdl]⟩
          · cases hpe : be.pathExists ((be.download url).2.2.getD "") with
            | false =>
                right
                left
                exact ⟨_, by rw [downloadAndUpload_of_path_missing cfg be st url hp hx hdl hpe]⟩
            | true =>
                cases hup : be.upload ((be.download url).2.2.getD "") (be.folderName url) with
                | false =>
                    right
                    left
                    exact ⟨_, by rw [downloadAndUpload_of_upload_failed cfg be st url hp hx hdl hpe hup]⟩
                | true =>
                    cases hv : (verifyUpload cfg be ((be.download url).2.2.getD "")
                        (be.folderName url)).1 with
                    | false =>
                        right
                        left
                        exact ⟨_, by rw [downloadAndUpload_of_verify_failed cfg be st url hp hx hdl hpe hup hv]⟩
                    | true =>
                        right
                        right
                        rw [downloadAndUpload_of_success cfg be st url hp hx hdl hpe hup hv]
                        refine ⟨rfl, rfl, ?_⟩
                        by_cases hcl : (lookupKey st.failed (recordKey be.pyHash url)).isSome
                        · right
                          simp [hcl]
                        · left
                          simp [hcl]

/-- A completion record present before `download_and_upload` is still
present, unchanged, afterwards: completion records are never mutated
or removed. -/
theorem downloadAndUpload_processed_preserved (cfg : Config) (be : Backend)
    (st : ManagerState) (url : String) (k : String) (p : ProcInfo)
    (h : lookupKey st.processed k = some p) :
    lookupKey (downloadAndUpload cfg be st url).2.1.processed k = some p := by
  rcases downloadAndUpload_state_shape cfg be st url with h1 | ⟨m, h1⟩ | ⟨hn, h1, _⟩
  · rw [h1]
    exact h
  · rw [h1, recordDownloadFailure_processed]
    exact h
  · rw [h1]
    have hk : k ≠ recordKey be.pyHash url := by
      intro hh
      rw [hh, hn] at h
      exact Option.noConfusion h
    rw [lookupKey_insertKey_ne _ _ _ _ hk]
    exact h

/-- `download_and_upload` for one url never touches the failure-ledger
entry of a different key. -/
theorem downloadAndUpload_failed_other (cfg : Config) (be : Backend)
    (st : ManagerState) (url : String) (k : String)
    (h : k ≠ recordKey be.pyHash url) :
    lookupKey (downloadAndUpload cfg be st url).2.1.failed k =
      lookupKey st.failed k := by
  rcases downloadAndUpload_state_shape cfg be st url with h1 | ⟨m, h1⟩ | ⟨hn, _, h1 | h1⟩
  · rw [h1]
  · rw [h1]
    exact recordDownloadFailure_failed_other be st url m k h
  · rw [h1]
  · rw [h1]
    exact lookupKey_eraseKey_ne _ _ _ h

theorem downloadAndUpload_failed_nodup (cfg : Config) (be : Backend)
    (st : ManagerState) (url : String) (h : (keysOf st.failed).Nodup) :
    (keysOf (downloadAndUpload cfg be st url).2.1.failed).Nodup := by
  rcases downloadAndUpload_state_shape cfg be st url with h1 | ⟨m, h1⟩ | ⟨hn, _, h1 | h1⟩
  · rw [h1]
    exact h
  · rw [h1]
    exact recordDownloadFailure_nodup be st url m h
  · rw [h1]
    exact h
  · rw [h1]
    exact keysOf_eraseKey_nodup _ _ h

theorem downloadAndUpload_consistent (cfg : Config) (be : Backend)
    (st : ManagerState) (url : String)
    (h : ledgerConsistent be.pyHash st.failed) :
    ledgerConsistent be.pyHash (downloadAndUpload cfg be st url).2.1.failed := by
  rcases downloadAndUpload_state_shape cfg be st url with h1 | ⟨m, h1⟩ | ⟨hn, _, h1 | h1⟩
  · rw [h1]
    exact h
  · rw [h1]
    exact recordDownloadFailure_consistent be st url m h
  · rw [h1]
    exact h
  · rw [h1]
    intro e he hu
    exact h e (mem_eraseKey _ _ _ _ he) hu

/-- `download_and_upload` never emits a dispatch marker: `attempt`
events come only from the two sweeps. -/
theorem downloadAndUpload_no_attempt (cfg : Config) (be : Backend)
    (st : ManagerState) (url : String) (u : String) :
    Event.attempt u ∉ (downloadAndUpload cfg be st url).2.2 := by
  have hv2 := verifyUpload_events cfg be ((be.download url).2.2.getD "") (be.folderName url)
  cases hp : lookupKey st.processed (recordKey be.pyHash url) with
  | some p =>
      rw [downloadAndUpload_of_processed cfg be st url p hp]
      simp
  | none =>
      cases hx : isExhausted cfg st (recordKey be.pyHash url) with
      | true =>
          rw [downloadAndUpload_of_exhausted cfg be st url hp hx]
          simp
      | false =>
          by_cases hdl : ((be.download url).1 = false ∨ (be.download url).2.2.getD "" = "")
          · rw [downloadAndUpload_of_download_failed cfg be st url hp hx hdl]
            simp [recordDownloadFailure_events]
          · cases hpe : be.pathExists ((be.download url).2.2.getD "") with
            | false =>
                rw [downloadAndUpload_of_path_missing cfg be st url hp hx hdl hpe]
                simp [recordDownloadFailure_events]
            | true =>
                cases hup : be.upload ((be.download url).2.2.getD "") (be.folderName url) with
                | false =>
                    rw [downloadAndUpload_of_upload_failed cfg be st url hp hx hdl hpe hup]
                    simp [recordDownloadFailure_events]
                | true =>
                    cases hv : (verifyUpload cfg be ((be.download url).2.2.getD "")
                        (be.folderName url)).1 with
                    | false =>
                        rw [downloadAndUpload_of_verify_failed cfg be st url hp hx hdl hpe hup hv]
                        rcases hv2 with h2 | h2 <;>
                          simp [h2, recordDownloadFailure_events]
                    | true =>
                        rw [downloadAndUpload_of_success cfg be st url hp hx hdl hpe hup hv]
                        rcases hv2 with h2 | h2 <;>
                          · by_cases hcl : (lookupKey st.failed (recordKey be.pyHash url)).isSome <;>
                              by_cases had : cfg.autoDelete <;>
                                simp [h2, hcl, had]

/-! ## Step-level facts about the retry sweep and the backlog sweep -/

theorem retryStep_events_mono (cfg : Config) (be : Backend)
    (acc : ManagerState × List Event) (k : String) :
    ∃ t, (retryStep cfg be acc k).2 = acc.2 ++ t := by
  cases hl : lookupKey acc.1.failed k with
  | none => exact ⟨[], by simp [retryStep, hl]⟩
  | some info =>
      by_cases hx : cfg.maxFailures ≤ info.failures
      · exact ⟨[], by simp [retryStep, hl, hx]⟩
      · by_cases hu : info.url = ""
        · exact ⟨[Event.saveFailed], by simp [retryStep, hl, hx, hu]⟩
        · exact ⟨Event.attempt info.url :: (downloadAndUpload cfg be acc.1 info.url).2.2,
            by simp [retryStep, hl, hx, hu]⟩

theorem retryStep_failed_other (cfg : Config) (be : Backend)
    (acc : ManagerState × List Event) (k k' : String)
    (hcons : ledgerConsistent be.pyHash acc.1.failed) (hne : k' ≠ k) :
    lookupKey (retryStep cfg be acc k).1.failed k' = lookupKey acc.1.failed k' := by
  cases hl : lookupKey acc.1.failed k with
  | none => simp [retryStep, hl]
  | some info =>
      by_cases hx : cfg.maxFailures ≤ info.failures
      · simp [retryStep, hl, hx]
      · by_cases hu : info.url = ""
        · simp [retryStep, hl, hx, hu, lookupKey_eraseKey_ne _ _ _ hne]
        · have hkey : k = recordKey be.pyHash info.url :=
            hcons (k, info) (mem_of_lookupKey _ _ _ hl) hu
          simp only [retryStep, hl, if_neg hx, if_neg hu]
          exact downloadAndUpload_failed_other cfg be acc.1 info.url k'
            (by rw [← hkey]; exact hne)

theorem retryStep_processed (cfg : Config) (be : Backend)
    (acc : ManagerState × List Event) (k k' : String) (p : ProcInfo)
    (h : lookupKey acc.1.processed k' = some p) :
    lookupKey (retryStep cfg be acc k).1.processed k' = some p := by
  cases hl : lookupKey acc.1.failed k with
  | none => simpa [retryStep, hl] using h
  | some info =>
      by_cases hx : cfg.maxFailures ≤ info.failures
      · simpa [retryStep, hl, hx] using h
      · by_cases hu : info.url = ""
        · simpa [retryStep, hl, hx, hu] using h
        · simp only [retryStep, hl, if_neg hx, if_neg hu]
          exact downloadAndUpload_processed_preserved cfg be acc.1 info.url k' p h

theorem retryStep_nodup (cfg : Config) (be : Backend)
    (acc : ManagerState × List Event) (k : String)
    (h : (keysOf acc.1.failed).Nodup) :
    (keysOf (retryStep cfg be acc k).1.failed).Nodup := by
  cases hl : lookupKey acc.1.failed k with
  | none => simpa [retryStep, hl] using h
  | some info =>
      by_cases hx : cfg.maxFailures ≤ info.failures
      · simpa [retryStep, hl, hx] using h
      · by_cases hu : info.url = ""
        · simp only [retryStep, hl, if_neg hx, if_pos hu]
          exact keysOf_eraseKey_nodup _ _ h
        · simp only [retryStep, hl, if_neg hx, if_neg hu]
          exact downloadAndUpload_failed_nodup cfg be acc.1 info.url h

theorem retryStep_consistent (cfg : Config) (be : Backend)
    (acc : ManagerState × List Event) (k : String)
    (h : ledgerConsistent be.pyHash acc.1.failed) :
    ledgerConsistent be.pyHash (retryStep cfg be acc k).1.failed := by
  cases hl : lookupKey acc.1.failed k with
  | none => simpa [retryStep, hl] using h
  | some info =>
      by_cases hx : cfg.maxFailures ≤ info.failures
      · simpa [retryStep, hl, hx] using h
      · by_cases hu : info.url = ""
        · simp only [retryStep, hl, if_neg hx, if_pos hu]
          intro e he heu
          exact h e (mem_eraseKey _ _ _ _ he) heu
        · simp only [retryStep, hl, if_neg hx, if_neg hu]
          exact downloadAndUpload_consistent cfg be acc.1 info.url h

theorem retryStep_no_empty_attempt (cfg : Config) (be : Backend)
    (acc : ManagerState × List Event) (k : String)
    (h : Event.attempt "" ∉ acc.2) :
    Event.attempt "" ∉ (retryStep cfg be acc k).2 := by
  cases hl : lookupKey acc.1.failed k with
  | none => simpa [retryStep, hl] using h
  | some info =>
      by_cases hx : cfg.maxFailures ≤ info.failures
      · simpa [retryStep, hl, hx] using h
      · by_cases hu : info.url = ""
        · simp only [retryStep, hl, if_neg hx, if_pos hu]
          intro hmem
          rcases List.mem_append.mp hmem with h1 | h2
          · exact h h1
          · simp at h2
        · simp only [retryStep, hl, if_neg hx, if_neg hu]
          intro hmem
          rcases List.mem_append.mp hmem with h1 | h2
          · exact h h1
          · rcases List.mem_cons.mp h2 with h3 | h4
            · exact hu (Event.attempt.inj h3).symm
            · exact downloadAndUpload_no_attempt cfg be acc.1 info.url "" h4

theorem processBacklogStep_processed (cfg : Config) (be : Backend)
    (acc : ManagerState × List Event) (url k : String) (p : ProcInfo)
    (h : lookupKey acc.1.processed k = some p) :
    lookupKey (processBacklogStep cfg be acc url).1.processed k = some p := by
  by_cases hs : (lookupKey acc.1.processed (recordKey be.pyHash url)).isSome
  · simpa [processBacklogStep, hs] using h
  · have hs' : (lookupKey acc.1.processed (recordKey be.pyHash url)).isSome = false := by
      simpa using hs
    simp only [processBacklogStep, hs', Bool.false_eq_true, if_false]
    exact downloadAndUpload_processed_preserved cfg be acc.1 url k p h

/-! ## Fold-level facts about the sweeps -/

theorem retryFold_events_mono (cfg : Config) (be : Backend) :
    ∀ (ks : List String) (acc : ManagerState × List Event) (e : Event),
      e ∈ acc.2 → e ∈ (ks.foldl (retryStep cfg be) acc).2 := by
  intro ks
  induction ks with
  | nil => intro acc e he; simpa using he
  | cons khd ktl ih =>
      intro acc e he
      simp only [List.foldl_cons]
      apply ih
      obtain ⟨t, ht⟩ := retryStep_events_mono cfg be acc khd
      rw [ht]
      exact List.mem_append_left _ he

theorem retryFold_processed (cfg : Config) (be : Backend) :
    ∀ (ks : List String) (acc : ManagerState × List Event) (k : String) (p : ProcInfo),
      lookupKey acc.1.processed k = some p →
      lookupKey ((ks.foldl (retryStep cfg be) acc).1).processed k = some p := by
  intro ks
  induction ks with
  | nil => intro acc k p h; simpa using h
  | cons khd ktl ih =>
      intro acc k p h
      simp only [List.foldl_cons]
      exact ih _ k p (retryStep_processed cfg be acc khd k p h)

theorem retryFold_nodup (cfg : Config) (be : Backend) :
    ∀ (ks : List String) (acc : ManagerState × List Event),
      (keysOf acc.1.failed).Nodup →
      (keysOf ((ks.foldl (retryStep cfg be) acc).1).failed).Nodup := by
  intro ks
  induction ks with
  | nil => intro acc h; simpa using h
  | cons khd ktl ih =>
      intro acc h
      simp only [List.foldl_cons]
      exact ih _ (retryStep_nodup cfg be acc khd h)

theorem retryFold_consistent (cfg : Config) (be : Backend) :
    ∀ (ks : List String) (acc : ManagerState × List Event),
      ledgerConsistent be.pyHash acc.1.failed →
      ledgerConsistent be.pyHash ((ks.foldl (retryStep cfg be) acc).1).failed := by
  intro ks
  induction ks with
  | nil => intro acc h; simpa using h
  | cons khd ktl ih =>
      intro acc h
      simp only [List.foldl_cons]
      exact ih _ (retryStep_consistent cfg be acc khd h)

theorem retryFold_failed_other (cfg : Config) (be : Backend) :
    ∀ (ks : List String) (acc : ManagerState × List Event) (k : String),
      ledgerConsistent be.pyHash acc.1.failed → k ∉ ks →
      lookupKey ((ks.foldl (retryStep cfg be) acc).1).failed k =
        lookupKey acc.1.failed k := by
  intro ks
  induction ks with
  | nil => intro acc k _ _; simp
  | cons khd ktl ih =>
      intro acc k hcons hk
      simp only [List.mem_cons] at hk
      push_neg at hk
      simp only [List.foldl_cons]
      rw [ih _ k (retryStep_consistent cfg be acc khd hcons) hk.2]
      exact retryStep_failed_other cfg be acc khd k hcons hk.1

theorem retryFold_no_empty_attempt (cfg : Config) (be : Backend) :
    ∀ (ks : List String) (acc : ManagerState × List Event),
      Event.attempt "" ∉ acc.2 →
      Event.attempt "" ∉ (ks.foldl (retryStep cfg be) acc).2 := by
  intro ks
  induction ks with
  | nil => intro acc h; simpa using h
  | cons khd ktl ih =>
      intro acc h
      simp only [List.foldl_cons]
      exact ih _ (retryStep_no_empty_attempt cfg be acc khd h)

/-- Every ledger entry of the sweep's key snapshot that is not
exhausted and has a usable url is dispatched by the retry fold. -/
theorem retryFold_attempts (cfg : Config) (be : Backend) :
    ∀ (ks : List String) (acc : ManagerState × List Event) (k : String)
      (info : FailInfo),
      (keysOf acc.1.failed).Nodup → ledgerConsistent be.pyHash acc.1.failed →
      ks.Nodup → k ∈ ks → lookupKey acc.1.failed k = some info →
      info.failures < cfg.maxFailures → info.url ≠ "" →
      Event.attempt info.url ∈ (ks.foldl (retryStep cfg be) acc).2 := by
  intro ks
  induction ks with
  | nil => intro acc k info _ _ _ hk; simp at hk
  | cons khd ktl ih =>
      intro acc k info hnd hcons hksnd hk hl hlt hu
      simp only [List.nodup_cons] at hksnd
      simp only [List.foldl_cons]
      rcases List.mem_cons.mp hk with h1 | h2
      · subst h1
        have hstep : (retryStep cfg be acc k).2 =
            acc.2 ++ (Event.attempt info.url ::
              (downloadAndUpload cfg be acc.1 info.url).2.2) := by
          simp [retryStep, hl, Nat.not_le.mpr hlt, hu]
        apply retryFold_events_mono cfg be ktl _ _
        rw [hstep]
        exact List.mem_append_right _ (List.mem_cons_self _ _)
      · have hne : k ≠ khd := fun hh => hksnd.1 (hh ▸ h2)
        exact ih _ k info (retryStep_nodup cfg be acc khd hnd)
          (retryStep_consistent cfg be acc khd hcons) hksnd.2 h2
          (by rw [retryStep_failed_other cfg be acc khd k hcons hne]; exact hl)
          hlt hu

/-- A non-exhausted ledger entry with an empty url is erased by the
retry fold, and the erasure is persisted. -/
theorem retryFold_drops_empty (cfg : Config) (be : Backend) :
    ∀ (ks : List String) (acc : ManagerState × List Event) (k : String)
      (info : FailInfo),
      (keysOf acc.1.failed).Nodup → ledgerConsistent be.pyHash acc.1.failed →
      ks.Nodup → k ∈ ks → lookupKey acc.1.failed k = some info →
      info.failures < cfg.maxFailures → info.url = "" →
      lookupKey ((ks.foldl (retryStep cfg be) acc).1).failed k = none ∧
      Event.saveFailed ∈ (ks.foldl (retryStep cfg be) acc).2 := by
  intro ks
  induction ks with
  | nil => intro acc k info _ _ _ hk; simp at hk
  | cons khd ktl ih =>
      intro acc k info hnd hcons hksnd hk hl hlt hu
      simp only [List.nodup_cons] at hksnd
      simp only [List.foldl_cons]
      rcases List.mem_cons.mp hk with h1 | h2
      · subst h1
        have hstep : retryStep cfg be acc k =
            ({ acc.1 with failed := eraseKey acc.1.failed k },
             acc.2 ++ [Event.saveFailed]) := by
          simp [retryStep, hl, Nat.not_le.mpr hlt, hu]
        constructor
        · rw [retryFold_failed_other cfg be ktl _ k
            (by rw [hstep]; intro e he heu; exact hcons e (mem_eraseKey _ _ _ _ he) heu)
            hksnd.1]
          rw [hstep]
          exact lookupKey_eraseKey_self _ _ hnd
        · apply retryFold_events_mono cfg be ktl _ _
          rw [hstep]
          exact List.mem_append_right _ (List.mem_cons_self _ _)
      · have hne : k ≠ khd := fun hh => hksnd.1 (hh ▸ h2)
        exact ih _ k info (retryStep_nodup cfg be acc khd hnd)
          (retryStep_consistent cfg be acc khd hcons) hksnd.2 h2
          (by rw [retryStep_failed_other cfg be acc khd k hcons hne]; exact hl)
          hlt hu

/-- During the backlog fold, a url whose key is in the completion map
at the start of the fold is never dispatched. -/
theorem backlogFold_skip (cfg : Config) (be : Backend) :
    ∀ (urls : List String) (acc : ManagerState × List Event) (url : String)
      (p : ProcInfo),
      lookupKey acc.1.processed (recordKey be.pyHash url) = some p →
      Event.attempt url ∉ acc.2 →
      Event.attempt url ∉ (urls.foldl (processBacklogStep cfg be) acc).2 := by
  intro urls
  induction urls with
  | nil => intro acc url p hp h; simpa using h
  | cons uhd utl ih =>
      intro acc url p hp h
      simp only [List.foldl_cons]
      refine ih _ url p (processBacklogStep_processed cfg be acc uhd _ p hp) ?_
      by_cases hs : (lookupKey acc.1.processed (recordKey be.pyHash uhd)).isSome
      · simpa [processBacklogStep, hs] using h
      · have hs' : (lookupKey acc.1.processed (recordKey be.pyHash uhd)).isSome = false := by
          simpa using hs
        simp only [processBacklogStep, hs', Bool.false_eq_true, if_false]
        intro hmem
        rcases List.mem_append.mp hmem with h1 | h2
        · exact h h1
        · rcases List.mem_cons.mp h2 with h3 | h4
          · have : url = uhd := Event.attempt.inj h3
            subst this
            rw [hp] at hs'
            simp at hs'
          · exact downloadAndUpload_no_attempt cfg be acc.1 uhd url h4

/-! ## Claims -/

/-- Claim C1: the spec requires the record key to be a deterministic
digest of the identity, equal across two process runs.  The code uses
`str(hash(url))`, and CPython's string hash is SipHash-1-3 under a
per-process random secret: two runs whose secrets differ (here
`(0, 0)` versus `(0, 1)`) produce different record keys for the same
identity, so completion/failure records written by one run are
unreachable in the next. -/
theorem c1_record_key_unstable_across_seeds :
    recordKey (pyHashStr 0 0) "https://nkiri.com/money-heist" ≠
      recordKey (pyHashStr 0 1) "https://nkiri.com/money-heist" := by
  decide

/-- Claim C2: once an identity's failure count has reached the
configured ceiling (3 in the default configuration), a further
processing call returns failure with the state untouched and an empty
call trace — no backend call is made — and the stored record still
carries exactly the ceiling count. -/
theorem c2_ceiling_skip (cfg : Config) (be : Backend) (st : ManagerState)
    (url : String) (info : FailInfo)
    (hp : lookupKey st.processed (recordKey be.pyHash url) = none)
    (hf : lookupKey st.failed (recordKey be.pyHash url) = some info)
    (hc : info.failures = cfg.maxFailures) :
    downloadAndUpload cfg be st url = (false, st, []) ∧
    lookupKey (downloadAndUpload cfg be st url).2.1.failed
      (recordKey be.pyHash url) = some info ∧
    info.failures = cfg.maxFailures ∧
    defaultConfig.maxFailures = 3 := by
  have hx : isExhausted cfg st (recordKey be.pyHash url) = true := by
    simp [isExhausted, hf, hc]
  have h1 := downloadAndUpload_of_exhausted cfg be st url hp hx
  refine ⟨h1, ?_, hc, rfl⟩
  rw [h1]
  exact hf

theorem c2_ceiling_skip_witness :
    downloadAndUpload defaultConfig beFail stExhausted "ab" =
      (false, stExhausted, []) ∧
    lookupKey (downloadAndUpload defaultConfig beFail stExhausted "ab").2.1.failed
      (recordKey beFail.pyHash "ab") = some infoAtCeiling ∧
    infoAtCeiling.failures = defaultConfig.maxFailures ∧
    defaultConfig.maxFailures = 3 :=
  c2_ceiling_skip defaultConfig beFail stExhausted "ab" infoAtCeiling
    (by decide) (by decide) (by decide)

/-- Claim C3: an identity whose key is already in the completion map
is answered with success immediately: the returned state is the input
state (both record maps unchanged) and the call trace is empty (no
fetch, upload or verify call). -/
theorem c3_completed_short_circuit (cfg : Config) (be : Backend)
    (st : ManagerState) (url : String) (p : ProcInfo)
    (hp : lookupKey st.processed (recordKey be.pyHash url) = some p) :
    downloadAndUpload cfg be st url = (true, st, []) :=
  downloadAndUpload_of_processed cfg be st url p hp

theorem c3_completed_short_circuit_witness :
    downloadAndUpload defaultConfig beOk stDoneAb "ab" = (true, stDoneAb, []) :=
  c3_completed_short_circuit defaultConfig beOk stDoneAb "ab" procDoneAb (by decide)

/-- Claim C6: loading a record file that is missing yields the empty
map with the filesystem untouched; loading one whose contents are
invalid JSON yields the empty map and leaves a backup of the corrupt
contents under the timestamp-suffixed name — and `loadJsonFile` is a
total function, so neither case raises. -/
theorem c6_load_tolerates_missing_and_corrupt (β : Type)
    (fs : FS (List (String × β))) (t : Nat) (filename raw : String) :
    (lookupKey fs filename = none → loadJsonFile fs t filename = ([], fs)) ∧
    (lookupKey fs filename = some (FileContent.garbage raw) →
       (loadJsonFile fs t filename).1 = [] ∧
       lookupKey (loadJsonFile fs t filename).2
         (filename ++ "." ++ toString t ++ ".bak") =
         some (FileContent.garbage raw)) := by
  constructor
  · intro h
    simp [loadJsonFile, h]
  · intro h
    constructor
    · simp [loadJsonFile, h]
    · simp only [loadJsonFile, h]
      exact lookupKey_insertKey_self _ _ _

theorem c6_load_tolerates_missing_and_corrupt_witness :
    loadJsonFile ([] : FS (List (String × FailInfo))) 5 "processed_urls.json" =
      ([], []) ∧
    (loadJsonFile fsCorrupt 1700000000 "failed_downloads.json").1 = [] ∧
    lookupKey (loadJsonFile fsCorrupt 1700000000 "failed_downloads.json").2
      ("failed_downloads.json" ++ "." ++ toString 1700000000 ++ ".bak") =
      some (FileContent.garbage "this is not json") := by
  refine ⟨?_, ?_, ?_⟩
  · exact (c6_load_tolerates_missing_and_corrupt FailInfo [] 5
      "processed_urls.json" "").1 (by decide)
  · exact ((c6_load_tolerates_missing_and_corrupt FailInfo fsCorrupt 1700000000
      "failed_downloads.json" "this is not json").2 (by decide)).1
  · exact ((c6_load_tolerates_missing_and_corrupt FailInfo fsCorrupt 1700000000
      "failed_downloads.json" "this is not json").2 (by decide)).2

/-- Claim C7: a save writes the complete serialization to the sibling
temp path (that state is among the intermediate filesystem states) and
then renames it over the target in one step, so in every intermediate
state the target path holds either its prior content or the complete
new content — never a partial write — and afterwards the target holds
the new content. -/
theorem c7_save_atomic_replace (α : Type) (fs : FS α) (filename : String)
    (data : α) :
    (∀ s ∈ saveJsonFileStates fs filename data,
        lookupKey s filename = lookupKey fs filename ∨
        lookupKey s filename = some (FileContent.json data)) ∧
    insertKey fs (filename ++ ".tmp") (FileContent.json data) ∈
      saveJsonFileStates fs filename data ∧
    lookupKey (saveJsonFile fs filename data).2 filename =
      some (FileContent.json data) ∧
    (saveJsonFile fs filename data).1 = true := by
  have hne : filename ≠ filename ++ ".tmp" := by
    intro h
    have h2 := congrArg String.length h
    rw [String.length_append] at h2
    have h3 : (".tmp" : String).length = 4 := rfl
    omega
  refine ⟨?_, ?_, ?_, rfl⟩
  · intro s hs
    simp only [saveJsonFileStates, List.mem_cons, List.not_mem_nil, or_false] at hs
    rcases hs with rfl | rfl | rfl | rfl
    · left
      rfl
    · left
      exact lookupKey_insertKey_ne _ _ _ _ hne
    · left
      exact lookupKey_insertKey_ne _ _ _ _ hne
    · right
      exact lookupKey_insertKey_self _ _ _
  · simp [saveJsonFileStates]
  · exact lookupKey_insertKey_self _ _ _

theorem c7_save_atomic_replace_witness :
    (lookupKey (insertKey ([("a.json", FileContent.json 1)] : FS Nat)
        ("a.json" ++ ".tmp") (FileContent.garbage "")) "a.json" =
      lookupKey ([("a.json", FileContent.json 1)] : FS Nat) "a.json" ∨
     lookupKey (insertKey ([("a.json", FileContent.json 1)] : FS Nat)
        ("a.json" ++ ".tmp") (FileContent.garbage "")) "a.json" =
      some (FileContent.json 2)) ∧
    lookupKey (saveJsonFile ([("a.json", FileContent.json 1)] : FS Nat)
      "a.json" 2).2 "a.json" = some (FileContent.json 2) := by
  constructor
  · exact (c7_save_atomic_replace Nat [("a.json", FileContent.json 1)]
      "a.json" 2).1 _ (by simp [saveJsonFileStates])
  · exact (c7_save_atomic_replace Nat [("a.json", FileContent.json 1)]
      "a.json" 2).2.2.1

/-- Claim C4: when an item with an existing failure record succeeds
(download, upload and verification all report success), afterwards the
completion map holds exactly one record for the identity, the failure
record is gone, and both the completion write and the ledger deletion
were persisted (`saveProcessed` and `saveFailed` calls in the
trace). -/
theorem c4_success_clears_failure_history (cfg : Config) (be : Backend)
    (st : ManagerState) (url : String) (info : FailInfo) (dpath msg : String)
    (hp : lookupKey st.processed (recordKey be.pyHash url) = none)
    (hf : lookupKey st.failed (recordKey be.pyHash url) = some info)
    (hlt : info.failures < cfg.maxFailures)
    (hnd : (keysOf st.failed).Nodup)
    (hd : be.download url = (true, msg, some dpath))
    (hne : dpath ≠ "")
    (hpe : be.pathExists dpath = true)
    (hup : be.upload dpath (be.folderName url) = true)
    (hv : (verifyUpload cfg be dpath (be.folderName url)).1 = true) :
    (downloadAndUpload cfg be st url).1 = true ∧
    lookupKey (downloadAndUpload cfg be st url).2.1.processed
      (recordKey be.pyHash url) = some ⟨url, be.now, dpath, be.folderName url⟩ ∧
    countKey (downloadAndUpload cfg be st url).2.1.processed
      (recordKey be.pyHash url) = 1 ∧
    lookupKey (downloadAndUpload cfg be st url).2.1.failed
      (recordKey be.pyHash url) = none ∧
    Event.saveProcessed ∈ (downloadAndUpload cfg be st url).2.2 ∧
    Event.saveFailed ∈ (downloadAndUpload cfg be st url).2.2 := by
  have hdp : (be.download url).2.2.getD "" = dpath := by
    rw [hd]
    rfl
  have hnx : isExhausted cfg st (recordKey be.pyHash url) = false := by
    simp [isExhausted, hf, Nat.not_le.mpr hlt]
  have hdl : ¬ ((be.download url).1 = false ∨ (be.download url).2.2.getD "" = "") := by
    rw [hd]
    simp [hne]
  have hsome : (lookupKey st.failed (recordKey be.pyHash url)).isSome = true := by
    rw [hf]
    rfl
  have hs := downloadAndUpload_of_success cfg be st url hp hnx hdl
    (by rw [hdp]; exact hpe) (by rw [hdp]; exact hup) (by rw [hdp]; exact hv)
  rw [hs]
  refine ⟨rfl, ?_, ?_, ?_, ?_, ?_⟩
  · simp only [hdp]
    exact lookupKey_insertKey_self _ _ _
  · exact countKey_insertKey_of_none _ _ _ hp
  · simp only [hsome, if_true]
    exact lookupKey_eraseKey_self _ _ hnd
  · simp
  · simp [hsome]

theorem c4_success_clears_failure_history_witness :
    (downloadAndUpload defaultConfig beOk stTwoFailures "ab").1 = true ∧
    lookupKey (downloadAndUpload defaultConfig beOk stTwoFailures "ab").2.1.processed
      (recordKey beOk.pyHash "ab") =
      some ⟨"ab", beOk.now, "./downloads/Show/ab", beOk.folderName "ab"⟩ ∧
    countKey (downloadAndUpload defaultConfig beOk stTwoFailures "ab").2.1.processed
      (recordKey beOk.pyHash "ab") = 1 ∧
    lookupKey (downloadAndUpload defaultConfig beOk stTwoFailures "ab").2.1.failed
      (recordKey beOk.pyHash "ab") = none ∧
    Event.saveProcessed ∈ (downloadAndUpload defaultConfig beOk stTwoFailures "ab").2.2 ∧
    Event.saveFailed ∈ (downloadAndUpload defaultConfig beOk stTwoFailures "ab").2.2 :=
  c4_success_clears_failure_history defaultConfig beOk stTwoFailures "ab"
    infoTwoFailures "./downloads/Show/ab" "Downloaded"
    (by decide) (by decide) (by decide) (by decide) (by decide) (by decide)
    (by decide) (by decide) (by decide)

/-- Claim C5: if processing changed the completion map at any key,
then in that execution the upload reported success and the verify step
reported success — where, by definition of `verifyUpload`, a
configuration with verification disabled counts as verify success.  A
completion record is therefore never written before verification
succeeds. -/
theorem c5_completion_only_after_verified_upload (cfg : Config) (be : Backend)
    (st : ManagerState) (url : String) (k : String)
    (hchange : lookupKey (downloadAndUpload cfg be st url).2.1.processed k ≠
      lookupKey st.processed k) :
    be.upload ((be.download url).2.2.getD "") (be.folderName url) = true ∧
    (verifyUpload cfg be ((be.download url).2.2.getD "") (be.folderName url)).1
      = true := by
  cases hp : lookupKey st.processed (recordKey be.pyHash url) with
  | some p =>
      rw [downloadAndUpload_of_processed cfg be st url p hp] at hchange
      exact absurd rfl hchange
  | none =>
      cases hx : isExhausted cfg st (recordKey be.pyHash url) with
      | true =>
          rw [downloadAndUpload_of_exhausted cfg be st url hp hx] at hchange
          exact absurd rfl hchange
      | false =>
          by_cases hdl : ((be.download url).1 = false ∨
              (be.download url).2.2.getD "" = "")
          · rw [downloadAndUpload_of_download_failed cfg be st url hp hx hdl,
              recordDownloadFailure_processed] at hchange
            exact absurd rfl hchange
          · cases hpe : be.pathExists ((be.download url).2.2.getD "") with
            | false =>
                rw [downloadAndUpload_of_path_missing cfg be st url hp hx hdl hpe,
                  recordDownloadFailure_processed] at hchange
                exact absurd rfl hchange
            | true =>
                cases hup : be.upload ((be.download url).2.2.getD "")
                    (be.folderName url) with
                | false =>
                    rw [downloadAndUpload_of_upload_failed cfg be st url hp hx hdl
                      hpe hup, recordDownloadFailure_processed] at hchange
                    exact absurd rfl hchange
                | true =>
                    cases hv : (verifyUpload cfg be ((be.download url).2.2.getD "")
                        (be.folderName url)).1 with
                    | false =>
                        rw [downloadAndUpload_of_verify_failed cfg be st url hp hx
                          hdl hpe hup hv, recordDownloadFailure_processed] at hchange
                        exact absurd rfl hchange
                    | true => exact ⟨rfl, rfl⟩

theorem c5_completion_only_after_verified_upload_witness :
    beOk.upload ((beOk.download "ab").2.2.getD "") (beOk.folderName "ab") = true ∧
    (verifyUpload defaultConfig beOk ((beOk.download "ab").2.2.getD "")
      (beOk.folderName "ab")).1 = true :=
  c5_completion_only_after_verified_upload defaultConfig beOk stEmpty "ab"
    (recordKey beOk.pyHash "ab") (by decide)

/-- Claim C8: after a successful, verified upload with auto-delete
enabled, a failing local delete does not downgrade the outcome: the
delete call and its failure are in the trace, yet the call still
returns success, the completion record is in place and no failure
record exists for the identity. -/
theorem c8_delete_failure_never_downgrades (cfg : Config) (be : Backend)
    (st : ManagerState) (url : String) (dpath msg : String)
    (hp : lookupKey st.processed (recordKey be.pyHash url) = none)
    (hnx : isExhausted cfg st (recordKey be.pyHash url) = false)
    (hnd : (keysOf st.failed).Nodup)
    (hd : be.download url = (true, msg, some dpath))
    (hne : dpath ≠ "")
    (hpe : be.pathExists dpath = true)
    (hup : be.upload dpath (be.folderName url) = true)
    (hv : (verifyUpload cfg be dpath (be.folderName url)).1 = true)
    (had : cfg.autoDelete = true)
    (hdel : be.deleteOk dpath = false) :
    (downloadAndUpload cfg be st url).1 = true ∧
    lookupKey (downloadAndUpload cfg be st url).2.1.processed
      (recordKey be.pyHash url) = some ⟨url, be.now, dpath, be.folderName url⟩ ∧
    lookupKey (downloadAndUpload cfg be st url).2.1.failed
      (recordKey be.pyHash url) = none ∧
    Event.deleteCall dpath false ∈ (downloadAndUpload cfg be st url).2.2 := by
  have hdp : (be.download url).2.2.getD "" = dpath := by
    rw [hd]
    rfl
  have hdl : ¬ ((be.download url).1 = false ∨ (be.download url).2.2.getD "" = "") := by
    rw [hd]
    simp [hne]
  have hs := downloadAndUpload_of_success cfg be st url hp hnx hdl
    (by rw [hdp]; exact hpe) (by rw [hdp]; exact hup) (by rw [hdp]; exact hv)
  rw [hs]
  refine ⟨rfl, ?_, ?_, ?_⟩
  · simp only [hdp]
    exact lookupKey_insertKey_self _ _ _
  · by_cases hfs : (lookupKey st.failed (recordKey be.pyHash url)).isSome
    · simp only [hfs, if_true]
      exact lookupKey_eraseKey_self _ _ hnd
    · have hfs' : lookupKey st.failed (recordKey be.pyHash url) = none :=
        Option.not_isSome_iff_eq_none.mp hfs
      simp only [hfs', Option.isSome_none, Bool.false_eq_true, if_false]
  · simp [had, hdp, hdel]

theorem c8_delete_failure_never_downgrades_witness :
    (downloadAndUpload defaultConfig beDelFail stEmpty "ab").1 = true ∧
    lookupKey (downloadAndUpload defaultConfig beDelFail stEmpty "ab").2.1.processed
      (recordKey beDelFail.pyHash "ab") =
      some ⟨"ab", beDelFail.now, "./downloads/Show/ab", beDelFail.folderName "ab"⟩ ∧
    lookupKey (downloadAndUpload defaultConfig beDelFail stEmpty "ab").2.1.failed
      (recordKey beDelFail.pyHash "ab") = none ∧
    Event.deleteCall "./downloads/Show/ab" false ∈
      (downloadAndUpload defaultConfig beDelFail stEmpty "ab").2.2 :=
  c8_delete_failure_never_downgrades defaultConfig beDelFail stEmpty "ab"
    "./downloads/Show/ab" "Downloaded"
    (by decide) (by decide) (by decide) (by decide) (by decide) (by decide)
    (by decide) (by decide) (by decide) (by decide)

/-- Claim C9: a full cycle's trace is the retry sweep's trace followed
by the backlog sweep's trace; every ledger entry that is not exhausted
and has a usable identity is dispatched during the retry sweep (hence
before any backlog item); and a backlog url whose key is in the
completion map when the backlog sweep starts is never dispatched by
it.  The two hypotheses are the ledger's self-consistency invariants:
distinct keys (a Python dict) and each entry keyed by its own url's
record key (how `_record_download_failure` wrote it). -/
theorem c9_retry_sweep_precedes_backlog (cfg : Config) (be : Backend)
    (st : ManagerState) (urls : List String)
    (hnd : (keysOf st.failed).Nodup)
    (hcons : ledgerConsistent be.pyHash st.failed) :
    (processUrls cfg be st urls).2 =
      (retryFailedDownloads cfg be st).2 ++
        (processBacklog cfg be (retryFailedDownloads cfg be st).1 urls).2 ∧
    (∀ k info, (k, info) ∈ st.failed → info.failures < cfg.maxFailures →
       info.url ≠ "" →
       Event.attempt info.url ∈ (retryFailedDownloads cfg be st).2) ∧
    (∀ url p, url ∈ urls →
       lookupKey (retryFailedDownloads cfg be st).1.processed
         (recordKey be.pyHash url) = some p →
       Event.attempt url ∉
         (processBacklog cfg be (retryFailedDownloads cfg be st).1 urls).2) := by
  refine ⟨rfl, ?_, ?_⟩
  · intro k info hmem hlt hu
    have hne : st.failed.isEmpty = false := by
      cases hsf : st.failed with
      | nil =>
          rw [hsf] at hmem
          simp at hmem
      | cons a l => rfl
    unfold retryFailedDownloads
    simp only [hne, Bool.false_eq_true, if_false]
    exact retryFold_attempts cfg be (keysOf st.failed) (st, []) k info hnd hcons hnd
      (List.mem_map.mpr ⟨(k, info), hmem, rfl⟩)
      (lookupKey_of_mem _ _ _ hnd hmem) hlt hu
  · intro url p _ hp
    exact backlogFold_skip cfg be urls ((retryFailedDownloads cfg be st).1, [])
      url p hp (by simp)

theorem c9_retry_sweep_precedes_backlog_witness :
    (processUrls defaultConfig beFail stMixed ["u-done"]).2 =
      (retryFailedDownloads defaultConfig beFail stMixed).2 ++
        (processBacklog defaultConfig beFail
          (retryFailedDownloads defaultConfig beFail stMixed).1 ["u-done"]).2 ∧
    Event.attempt "ab" ∈ (retryFailedDownloads defaultConfig beFail stMixed).2 ∧
    Event.attempt "u-done" ∉
      (processBacklog defaultConfig beFail
        (retryFailedDownloads defaultConfig beFail stMixed).1 ["u-done"]).2 := by
  have h := c9_retry_sweep_precedes_backlog defaultConfig beFail stMixed ["u-done"]
    (by decide) (by unfold ledgerConsistent; decide)
  refine ⟨h.1, ?_, ?_⟩
  · exact h.2.1 "2" infoRetry (by decide) (by decide) (by decide)
  · exact h.2.2 "u-done" procDoneLong (by decide) (by decide)

/-- Claim C10 counterexample: the retry sweep checks the failure
ceiling (src/bulk.py line 593) before it checks the identity field
(line 599), so a ledger entry that is both exhausted and has an empty
identity is skipped, not deleted: after a full sweep of the concrete
ledger holding only such an entry, the entry is still present and no
ledger save happened — refuting the claim that any empty-identity
entry is deleted and the ledger never retains an unmappable record. -/
theorem c10_counterexample_exhausted_empty_retained :
    infoEmptyExhausted.url = "" ∧
    lookupKey (retryFailedDownloads defaultConfig beFail stEmptyExhausted).1.failed
      "7" = some infoEmptyExhausted ∧
    Event.saveFailed ∉
      (retryFailedDownloads defaultConfig beFail stEmptyExhausted).2 := by
  decide

/-- Claim C10 (amended): during the retry sweep, a failure-ledger
entry that is not yet exhausted and whose stored identity is missing
or empty is deleted from the ledger with the deletion persisted, and
no processing attempt is made for it; an exhausted entry, however, is
skipped by the ceiling check before the identity check, so an
exhausted empty-identity record is retained. -/
theorem c10_amended_drops_only_nonexhausted (cfg : Config) (be : Backend)
    (st : ManagerState) (k : String) (info : FailInfo)
    (hnd : (keysOf st.failed).Nodup)
    (hcons : ledgerConsistent be.pyHash st.failed)
    (hmem : (k, info) ∈ st.failed)
    (hlt : info.failures < cfg.maxFailures)
    (hu : info.url = "") :
    lookupKey (retryFailedDownloads cfg be st).1.failed k = none ∧
    Event.saveFailed ∈ (retryFailedDownloads cfg be st).2 ∧
    Event.attempt "" ∉ (retryFailedDownloads cfg be st).2 := by
  have hne : st.failed.isEmpty = false := by
    cases hsf : st.failed with
    | nil =>
        rw [hsf] at hmem
        simp at hmem
    | cons a l => rfl
  unfold retryFailedDownloads
  simp only [hne, Bool.false_eq_true, if_false]
  have hdrop := retryFold_drops_empty cfg be (keysOf st.failed) (st, []) k info
    hnd hcons hnd (List.mem_map.mpr ⟨(k, info), hmem, rfl⟩)
    (lookupKey_of_mem _ _ _ hnd hmem) hlt hu
  exact ⟨hdrop.1, hdrop.2, retryFold_no_empty_attempt cfg be _ _ (by simp)⟩

theorem c10_amended_drops_only_nonexhausted_witness :
    lookupKey (retryFailedDownloads defaultConfig beFail stEmptyFresh).1.failed
      "9" = none ∧
    Event.saveFailed ∈ (retryFailedDownloads defaultConfig beFail stEmptyFresh).2 ∧
    Event.attempt "" ∉ (retryFailedDownloads defaultConfig beFail stEmptyFresh).2 :=
  c10_amended_drops_only_nonexhausted defaultConfig beFail stEmptyFresh "9"
    infoEmptyFresh (by decide) (by unfold ledgerConsistent; decide) (by decide)
    (by decide) (by decide)

end NkiriBulk
